import Mathlib

set_option maxRecDepth 40000

/-!
Verification of the `mp4_parser` repository (a Python ISO/IEC 14496-12 box
decoder) against its natural-language specification.

The Python source (`src/mp4_parser.py`) is shallowly embedded below.  The
modelling conventions, matching CPython semantics:

* A binary file opened for reading is `PyFile`: its byte contents (`data`,
  each entry a byte value), the current read position `pos` (which, as for a
  real seekable file, may be moved past the end of the data by `seek`), and
  the file `name` used when constructing exceptions.
* `file.read(n)` returns up to `n` bytes starting at `pos` and advances `pos`
  by the number of bytes actually obtained; `read(-1)` reads everything up to
  end-of-file, while any other negative count raises
  `ValueError('read length must be non-negative or -1')`, modelled by
  `Err.valueError`; reading at or past end-of-file returns the empty byte
  string.
* `file.seek(n, 1)` (relative seek) always succeeds when the resulting
  offset is nonnegative, even past end-of-file; a negative resulting offset
  raises OSError.
* Exceptions are the constructors of `Err`.  Python's class hierarchy
  FileReadError <: FormatError <: Exception is reflected in the predicate
  `Err.isFormatError` used by `except FormatError` handlers.  Executing the
  statement `raise FormatError` (the bare class, as at mp4_parser.py lines
  295, 399, 507 and 540) calls `FormatError()` which is missing its required
  `filename` argument, so CPython raises `TypeError`; this is modelled by
  `Err.typeError`.  Likewise `raise FileReadError` (line 144) is a
  `TypeError`, and referencing the undefined name `actual_bytes`
  (line 111) is `Err.nameError`.  The handler `except FormatError as e:
  print(..., e.box_type)` in `readMp4Box` accesses the attribute `box_type`
  which neither `FormatError` nor `FileReadError` defines, so the handler
  itself raises `AttributeError`, modelled by `Err.attributeError`.
* Computations are state-passing functions `M α = PyFile → Res α`; on an
  exception the file position reached so far is kept (Python does not rewind
  the file on an exception).
* `dbg_print` is a no-op: the module-global `DEBUG` is 0 and every argument
  expression passed to it is total on the value ranges that occur, so the
  calls are dropped from the model.
* Python `try: x = f(...) except FileReadError as err: raise err` re-raises
  the same exception unchanged, so such blocks are embedded as plain calls.
* `.decode('utf-8')` is modelled by `decodeUtf8`, a strict UTF-8 decoder:
  1-4 byte sequences with the standard lead/continuation ranges, rejecting
  invalid lead bytes, truncated sequences, overlong encodings, surrogates
  and code points above U+10FFFF; a failed decode raises
  `UnicodeDecodeError`, modelled by `Err.unicodeDecodeError` (a kind of
  `ValueError`, caught by none of the parser's handlers).
* A `struct.unpack` of a multi-value format (for example `'>BBB'` or
  `'>IIIIIIIII'`) yields the tuple of values; these are modelled with
  explicit tuples or lists of the decoded integers.
* The unbounded recursion `readMp4Box → process* → processChildren →
  readMp4Box` and the `while` loops are given an explicit fuel parameter;
  exhausting it yields `Err.outOfFuel`, which models nontermination and is
  distinct from every Python exception.
* The Python processors compute their decoded fields into local variables
  (and mostly discard them).  Where a claim observes those values
  (`processMVHD`, `processTKHD`, `processMDHD`) the embedding returns a
  record of the locals; byte consumption and raised errors are modelled
  faithfully for every processor.
-/

/-- A Python binary file object: contents, read position, and name. -/
structure PyFile where
  name : String
  data : List Nat
  pos : Nat
deriving DecidableEq, Repr

/-- The bytes from the current position to end-of-file (empty past EOF). -/
def PyFile.rest (f : PyFile) : List Nat := f.data.drop f.pos

/-- Advance the read position by `k` bytes. -/
def PyFile.advance (f : PyFile) (k : Nat) : PyFile := { f with pos := f.pos + k }

/-- Python exceptions arising in mp4_parser (see the module comment). -/
inductive Err where
  | fileReadError (filename : String) (bytesRequested bytesRead : Int)
  | formatError (filename : String)
  | typeError
  | nameError
  | attributeError
  | osError
  | valueError
  | unicodeDecodeError
  | outOfFuel
deriving DecidableEq, Repr

/-- Whether a raised exception is caught by `except FormatError`
(`FileReadError` is a subclass of `FormatError`). -/
def Err.isFormatError : Err → Bool
  | .fileReadError _ _ _ => true
  | .formatError _ => true
  | _ => false

/-- Outcome of running a statement: a value or a raised exception, together
with the file state reached (exceptions do not rewind the file). -/
inductive Res (α : Type) where
  | ok (a : α) (s : PyFile)
  | err (e : Err) (s : PyFile)
deriving DecidableEq, Repr

/-- State-passing computations over the open file. -/
def M (α : Type) : Type := PyFile → Res α

instance : Monad M where
  pure a := fun s => .ok a s
  bind m k := fun s =>
    match m s with
    | .ok a s' => k a s'
    | .err e s' => .err e s'

/-- Raise an exception. -/
def M.raise {α : Type} (e : Err) : M α := fun s => .err e s

@[simp] theorem M.pure_apply {α : Type} (a : α) (s : PyFile) :
    (pure a : M α) s = .ok a s := rfl

@[simp] theorem M.bind_apply {α β : Type} (m : M α) (k : α → M β) (s : PyFile) :
    (m >>= k) s =
      match m s with
      | .ok a s' => k a s'
      | .err e s' => .err e s' := rfl

@[simp] theorem M.raise_apply {α : Type} (e : Err) (s : PyFile) :
    (M.raise e : M α) s = .err e s := rfl

/-- Big-endian interpretation of a byte string, as produced by
`struct.unpack` formats `'>I'`, `'>Q'`, `'>L'`, `'>H'`, `'>B'`. -/
def beNat (l : List Nat) : Nat := l.foldl (fun acc b => acc * 256 + b) 0

/-- `struct.unpack('>l', ...)` / `'>i'`: signed 32-bit big-endian. -/
def signed32 (l : List Nat) : Int :=
  let v := beNat l
  if v < 2 ^ 31 then (v : Int) else (v : Int) - 2 ^ 32

/-- `struct.unpack('>h', ...)`: signed 16-bit big-endian. -/
def signed16 (l : List Nat) : Int :=
  let v := beNat l
  if v < 2 ^ 15 then (v : Int) else (v : Int) - 2 ^ 16

/-- Strict UTF-8 decoding of a byte string to its code points, following
RFC 3629 as CPython's strict `'utf-8'` codec does: ASCII bytes stand alone;
lead bytes `0xC2-0xDF`, `0xE0-0xEF`, `0xF0-0xF4` take 1, 2, 3 continuation
bytes in `0x80-0xBF`, with the narrowed first-continuation ranges for
`0xE0` (no overlongs), `0xED` (no surrogates), `0xF0` (no overlongs) and
`0xF4` (nothing above U+10FFFF); everything else fails. -/
def utf8DecodeChars : List Nat → Option (List Char)
  | [] => some []
  | b :: rest =>
    if b < 128 then
      match utf8DecodeChars rest with
      | some cs => some (Char.ofNat b :: cs)
      | none => none
    else if 194 ≤ b ∧ b ≤ 223 then
      match rest with
      | c1 :: rest1 =>
        if 128 ≤ c1 ∧ c1 ≤ 191 then
          match utf8DecodeChars rest1 with
          | some cs => some (Char.ofNat ((b - 192) * 64 + (c1 - 128)) :: cs)
          | none => none
        else none
      | [] => none
    else if 224 ≤ b ∧ b ≤ 239 then
      match rest with
      | c1 :: c2 :: rest2 =>
        if (if b = 224 then 160 ≤ c1 ∧ c1 ≤ 191
            else if b = 237 then 128 ≤ c1 ∧ c1 ≤ 159
            else 128 ≤ c1 ∧ c1 ≤ 191) ∧ (128 ≤ c2 ∧ c2 ≤ 191) then
          match utf8DecodeChars rest2 with
          | some cs =>
              some (Char.ofNat ((b - 224) * 4096 + (c1 - 128) * 64 +
                (c2 - 128)) :: cs)
          | none => none
        else none
      | _ => none
    else if 240 ≤ b ∧ b ≤ 244 then
      match rest with
      | c1 :: c2 :: c3 :: rest3 =>
        if (if b = 240 then 144 ≤ c1 ∧ c1 ≤ 191
            else if b = 244 then 128 ≤ c1 ∧ c1 ≤ 143
            else 128 ≤ c1 ∧ c1 ≤ 191) ∧ (128 ≤ c2 ∧ c2 ≤ 191) ∧
            (128 ≤ c3 ∧ c3 ≤ 191) then
          match utf8DecodeChars rest3 with
          | some cs =>
              some (Char.ofNat ((b - 240) * 262144 + (c1 - 128) * 4096 +
                (c2 - 128) * 64 + (c3 - 128)) :: cs)
          | none => none
        else none
      | _ => none
    else none

/-- `bytes.decode('utf-8')`: the decoded string, or `none` when CPython
would raise `UnicodeDecodeError`. -/
def decodeUtf8 (l : List Nat) : Option String :=
  match utf8DecodeChars l with
  | some cs => some (String.mk cs)
  | none => none

/-- Run a `.decode('utf-8')` call inside the parser: a failed decode raises
`UnicodeDecodeError`. -/
def pyDecodeUtf8 (l : List Nat) : M String := fun f =>
  match decodeUtf8 l with
  | some s => .ok s f
  | none => .err .unicodeDecodeError f

/-- Split into chunks of four, the last chunk possibly shorter: the slicing
`[xs[x:x+4] for x in range(0, len(xs), 4)]`. -/
def chunk4 : List Nat → List (List Nat)
  | [] => []
  | a :: b :: c :: d :: rest => [a, b, c, d] :: chunk4 rest
  | l => [l]

/-- Split into chunks of two (used for `'>HHH'`-style unpacking). -/
def chunk2 : List Nat → List (List Nat)
  | [] => []
  | a :: b :: rest => [a, b] :: chunk2 rest
  | l => [l]

/-- `file.read(num_bytes)` (mp4_parser.py line 43): a short read is not an
error at this level; `read(-1)` reads to end-of-file, and any other
negative count raises `ValueError` (CPython
`read length must be non-negative or -1`). -/
def fileRead (numBytes : Int) : M (List Nat) := fun f =>
  if numBytes < -1 then .err .valueError f
  else
    let raw := if numBytes < 0 then f.rest else f.rest.take numBytes.toNat
    .ok raw (f.advance raw.length)

/-- `readFromFile` (mp4_parser.py lines 42-47). -/
def readFromFile (numBytes : Int) : M (List Nat) := fun f =>
  match fileRead numBytes f with
  | .ok rawData f' =>
      let actualBytes : Int := rawData.length
      if actualBytes < numBytes then
        .err (.fileReadError f.name numBytes actualBytes) f'
      else
        .ok rawData f'
  | .err e f' => .err e f'

/-- `advanceNBytes` (mp4_parser.py lines 106-111): `file.seek(num_bytes, 1)`
succeeds even past end-of-file, so `end_offset - start_offset` always equals
`num_bytes` and the guard never fires; were it to fire, the `raise` itself
would crash with `NameError` because `actual_bytes` is undefined there. -/
def advanceNBytes (numBytes : Int) : M Unit := fun f =>
  let startOffset : Int := f.pos
  if (f.pos : Int) + numBytes < 0 then .err .osError f
  else
    let f' : PyFile := { f with pos := ((f.pos : Int) + numBytes).toNat }
    let endOffset : Int := f'.pos
    if endOffset - startOffset < numBytes then .err .nameError f'
    else .ok () f'

/-- `readBoxHeader` (mp4_parser.py lines 50-87).  Returns
`(box_size, box_type, read_offset)`. -/
def readBoxHeader : M (Nat × String × Nat) := do
  let rawSize ← readFromFile 4
  let readOffset := 4
  let boxSize := beNat rawSize
  let rawType ← readFromFile 4
  let readOffset := readOffset + 4
  let boxType ← pyDecodeUtf8 rawType
  let sizeAndOffset ←
    if boxSize = 1 then do
      let rawLargesize ← readFromFile 8
      pure (beNat rawLargesize, readOffset + 8)
    else
      pure (boxSize, readOffset)
  let boxSize := sizeAndOffset.1
  let readOffset ←
    if boxType = "uuid" then do
      let _rawUsertype ← readFromFile 128
      pure (sizeAndOffset.2 + 128)
    else
      pure sizeAndOffset.2
  pure (boxSize, boxType, readOffset)

/-- `readFullBoxHeader` (mp4_parser.py lines 90-103): 1 version byte, then
3 flag bytes unpacked as a triple (`'>BBB'`). -/
def readFullBoxHeader : M (Nat × (Nat × Nat × Nat)) := do
  let rawVersionInfo ← readFromFile 1
  let versionInfo := beNat rawVersionInfo
  let rawFlags ← readFromFile 3
  let flags := (rawFlags.getD 0 0, rawFlags.getD 1 0, rawFlags.getD 2 0)
  pure (versionInfo, flags)

/-- One field tuple of a `supported_boxes` entry: `(size, sign, name)` where
`size` is a byte count or the sentinel `'E'` (fill to end of box). -/
inductive ItemSize where
  | val (n : Int)
  | E
deriving DecidableEq, Repr

/-- One entry of the `supported_boxes` schema list after its leading kind
tag, e.g. `(4, 'u', 'major_brand')`. -/
structure SchemaItem where
  size : ItemSize
  sign : Char
  name : String
deriving DecidableEq, Repr

/-- A `supported_boxes` value: the leading `'Box'`/`'FullBox'` tag followed
by the field tuples (mp4_parser.py lines 130-135). -/
structure BoxSchema where
  kind : String
  items : List SchemaItem
deriving DecidableEq, Repr

/-- `supported_boxes` (mp4_parser.py lines 130-135). -/
def supported_boxes : List (String × BoxSchema) :=
  [("ftyp", ⟨"Box",
      [⟨.val 4, 'u', "major_brand"⟩,
       ⟨.val 4, 'u', "minor_version"⟩,
       ⟨.E, 'u', "compatible_brands"⟩]⟩)]

/-- `box_types` (mp4_parser.py line 137). -/
def box_types : List String := ["Box", "FullBox"]

/-- The field loop of `processBox` (lines 148-163), carrying `bytes_read`.
Python's `item[0] is not 'E'` distinguishes an integer width from the
interned string `'E'`.  On the `'E'` branch `bytes_read` is not updated.
Returns the final `bytes_read` (a local of the Python function). -/
def processBoxLoop (boxLen : Int) : List SchemaItem → Int → M Int
  | [], bytesRead => pure bytesRead
  | item :: items, bytesRead =>
      match item.size with
      | .val n => do
          let _temp ← readFromFile n
          processBoxLoop boxLen items (bytesRead + n)
      | .E => do
          let _temp ← readFromFile (boxLen - bytesRead)
          processBoxLoop boxLen items bytesRead

/-- `processBox` (mp4_parser.py lines 140-163).  The bare
`raise FileReadError` on line 144 lacks the constructor's three required
arguments, hence `Err.typeError`.  The empty `box_info` dict is built and
never filled or returned. -/
def processBox (boxLen : Int) (infoList : BoxSchema) : M Unit := fun f =>
  if infoList.kind ∉ box_types then .err .typeError f
  else (do
    let _bytesRead ← processBoxLoop boxLen infoList.items 0
    pure ()) f

/-- Locals of `processFTYP`. -/
structure FTYPInfo where
  major_brand : String
  minor_version : Nat
  compatible_brands : List String
deriving DecidableEq, Repr

/-- The brand split of `processFTYP` lines 198-199: the slices
`s[x:x+4]` of the decoded string (code-point indexing, clamped at the end)
for `x in range(0, n, 4)`; for `n ≤ 0` the range is empty. -/
def sliceStep4 (s : String) (n : Int) : List String :=
  (List.range (if 0 < n then ((n + 3) / 4).toNat else 0)).map
    (fun i => String.mk ((s.toList.drop (4 * i)).take 4))

/-- `processFTYP` (mp4_parser.py lines 177-207). -/
def processFTYP (boxLen : Int) : M FTYPInfo := do
  if boxLen % 4 ≠ 0 then M.raise (.formatError "ftyp")
  else do
    let rawMajorBrand ← readFromFile 4
    let majorBrand ← pyDecodeUtf8 rawMajorBrand
    let rawMinorVersion ← readFromFile 4
    let minorVersion := beNat rawMinorVersion
    let rawCompatibleBrands ← readFromFile (boxLen - 8)
    let compatibleBrandsStr ← pyDecodeUtf8 rawCompatibleBrands
    let compatibleBrands := sliceStep4 compatibleBrandsStr (boxLen - 8)
    pure ⟨majorBrand, minorVersion, compatibleBrands⟩

/-- `processMDAT` (mp4_parser.py lines 228-229). -/
def processMDAT (boxLen : Int) : M Unit := advanceNBytes boxLen

/-- Locals of `processMVHD`. -/
structure MVHDInfo where
  creation_time : Int
  modification_time : Int
  timescale : Int
  duration : Nat
  rate : Int
  volume : Int
  matrix : List Nat
  next_track_ID : Nat
deriving DecidableEq, Repr

/-- `processMVHD` (mp4_parser.py lines 255-324).  `creation_time`,
`modification_time` and `timescale` use format `'>l'` (signed),
`duration` uses `'>L'` (unsigned), `rate` `'>i'`, `volume` `'>h'`,
the matrix `'>IIIIIIIII'`, `next_track_ID` `'>I'`.  For any version other
than 0 the bare `raise FormatError` is a `TypeError` (module comment). -/
def processMVHD (boxLen : Int) : M MVHDInfo := do
  let verAndFlags ← readFullBoxHeader
  let versionInfo := verAndFlags.1
  let front ←
    if versionInfo = 0 then do
      let rawCreationTime ← readFromFile 4
      let creationTime := signed32 rawCreationTime
      let rawModificationTime ← readFromFile 4
      let modificationTime := signed32 rawModificationTime
      let rawTimescale ← readFromFile 4
      let timescale := signed32 rawTimescale
      let rawDuration ← readFromFile 4
      let duration := beNat rawDuration
      pure (creationTime, modificationTime, timescale, duration)
    else
      M.raise .typeError
  let rawRate ← readFromFile 4
  let rate := signed32 rawRate
  let rawVolume ← readFromFile 2
  let volume := signed16 rawVolume
  advanceNBytes 10
  let rawMatrix ← readFromFile 36
  let matrix := (chunk4 rawMatrix).map beNat
  advanceNBytes 24
  let rawNextTrackID ← readFromFile 4
  let nextTrackID := beNat rawNextTrackID
  pure ⟨front.1, front.2.1, front.2.2.1, front.2.2.2,
        rate, volume, matrix, nextTrackID⟩

/-- Locals of `processTKHD`.  Python keeps `volume` as the unpacked 1-tuple
(line 420 has no `[0]` subscript); the value inside is modelled. -/
structure TKHDInfo where
  creation_time : Int
  modification_time : Int
  track_ID : Int
  duration : Nat
  layer : Int
  alternate_group : Int
  volume : Int
  matrix : List Nat
  width : Int
  height : Int
deriving DecidableEq, Repr

/-- `processTKHD` (mp4_parser.py lines 359-441). -/
def processTKHD (boxLen : Int) : M TKHDInfo := do
  let verAndFlags ← readFullBoxHeader
  let versionInfo := verAndFlags.1
  let front ←
    if versionInfo = 0 then do
      let rawCreationTime ← readFromFile 4
      let creationTime := signed32 rawCreationTime
      let rawModificationTime ← readFromFile 4
      let modificationTime := signed32 rawModificationTime
      let rawTrackID ← readFromFile 4
      let trackID := signed32 rawTrackID
      advanceNBytes 4
      let rawDuration ← readFromFile 4
      let duration := beNat rawDuration
      pure (creationTime, modificationTime, trackID, duration)
    else
      M.raise .typeError
  advanceNBytes 8
  let rawLayer ← readFromFile 2
  let layer := signed16 rawLayer
  let rawAlternateGroup ← readFromFile 2
  let alternateGroup := signed16 rawAlternateGroup
  let rawVolume ← readFromFile 2
  let volume := signed16 rawVolume
  advanceNBytes 2
  let rawMatrix ← readFromFile 36
  let matrix := (chunk4 rawMatrix).map beNat
  let rawWidth ← readFromFile 4
  let width := signed32 rawWidth
  let rawHeight ← readFromFile 4
  let height := signed32 rawHeight
  pure ⟨front.1, front.2.1, front.2.2.1, front.2.2.2,
        layer, alternateGroup, volume, matrix, width, height⟩

/-- Locals of `processMDHD`. -/
structure MDHDInfo where
  creation_time : Int
  modification_time : Int
  timescale : Int
  duration : Nat
  language : Nat
deriving DecidableEq, Repr

/-- `processMDHD` (mp4_parser.py lines 467-517). -/
def processMDHD (boxLen : Int) : M MDHDInfo := do
  let verAndFlags ← readFullBoxHeader
  let versionInfo := verAndFlags.1
  let front ←
    if versionInfo = 0 then do
      let rawCreationTime ← readFromFile 4
      let creationTime := signed32 rawCreationTime
      let rawModificationTime ← readFromFile 4
      let modificationTime := signed32 rawModificationTime
      let rawTimescale ← readFromFile 4
      let timescale := signed32 rawTimescale
      let rawDuration ← readFromFile 4
      let duration := beNat rawDuration
      pure (creationTime, modificationTime, timescale, duration)
    else
      M.raise .typeError
  let rawLanguage ← readFromFile 2
  let language := beNat rawLanguage
  advanceNBytes 2
  pure ⟨front.1, front.2.1, front.2.2.1, front.2.2.2, language⟩

/-- Locals of `processHDLR`. -/
structure HDLRInfo where
  handler_type : String
  hdlrName : String
deriving DecidableEq, Repr

/-- `processHDLR` (mp4_parser.py lines 533-566).  `version_info is not 0`
behaves as an integer inequality under CPython small-int interning; the
bare `raise FormatError` is a `TypeError`. -/
def processHDLR (boxLen : Int) : M HDLRInfo := do
  let verAndFlags ← readFullBoxHeader
  let versionInfo := verAndFlags.1
  if versionInfo ≠ 0 then M.raise .typeError
  else do
    advanceNBytes 4
    let rawHandlerType ← readFromFile 4
    let handlerType ← pyDecodeUtf8 rawHandlerType
    advanceNBytes 12
    let rawName ← readFromFile (boxLen - 24)
    let hdlrName ← pyDecodeUtf8 rawName
    pure ⟨handlerType, hdlrName⟩

/-- Locals of `processVMHD`. -/
structure VMHDInfo where
  graphicsmode : Nat
  opcolor : List Nat
deriving DecidableEq, Repr

/-- `processVMHD` (mp4_parser.py lines 589-603); the full-box header result
is discarded by the source. -/
def processVMHD (boxLen : Int) : M VMHDInfo := do
  let _ ← readFullBoxHeader
  let rawGraphicsmode ← readFromFile 2
  let graphicsmode := beNat rawGraphicsmode
  let rawOpcolor ← readFromFile 6
  let opcolor := (chunk2 rawOpcolor).map beNat
  pure ⟨graphicsmode, opcolor⟩

/-- Locals of `processSMHD`. -/
structure SMHDInfo where
  balance : Nat
deriving DecidableEq, Repr

/-- `processSMHD` (mp4_parser.py lines 616-629). -/
def processSMHD (boxLen : Int) : M SMHDInfo := do
  let _verAndFlags ← readFullBoxHeader
  let rawBalance ← readFromFile 2
  let balance := beNat rawBalance
  advanceNBytes 2
  pure ⟨balance⟩

/-- Locals of `processURL`. -/
structure URLInfo where
  url : String
deriving DecidableEq, Repr

/-- `processURL` (mp4_parser.py lines 688-705). -/
def processURL (boxLen : Int) : M URLInfo := do
  let _verAndFlags ← readFullBoxHeader
  let rawUrl ← readFromFile (boxLen - 4)
  let url ← pyDecodeUtf8 rawUrl
  pure ⟨url⟩

/-- The `while child_size < num_bytes` loop of `processChildren`
(mp4_parser.py lines 114-117), with the box decoder for the current
recursion depth passed in as `box` and an explicit iteration fuel (the
Python loop does not terminate when `readMp4Box` keeps returning 0).
Returns the final `child_size`. -/
def processChildrenLoop (box : M Int) : Nat → Int → Int → M Int
  | 0, _, _ => M.raise .outOfFuel
  | fuel + 1, childSize, numBytes =>
      if childSize < numBytes then do
        let s ← box
        processChildrenLoop box fuel (childSize + s) numBytes
      else
        pure childSize

/-- `processChildren` (mp4_parser.py lines 114-117): `child_size` starts at
0; each iteration adds one `readMp4Box` result. -/
def processChildren (box : M Int) (fuel : Nat) (numBytes : Int) : M Int :=
  processChildrenLoop box fuel 0 numBytes

/-- `processMOOV` (mp4_parser.py lines 216-217). -/
def processMOOV (box : M Int) (fuel : Nat) (boxLen : Int) : M Int :=
  processChildren box fuel boxLen

/-- `processTRAK` (mp4_parser.py lines 333-334). -/
def processTRAK (box : M Int) (fuel : Nat) (boxLen : Int) : M Int :=
  processChildren box fuel boxLen

/-- `processMDIA` (mp4_parser.py lines 450-451). -/
def processMDIA (box : M Int) (fuel : Nat) (boxLen : Int) : M Int :=
  processChildren box fuel boxLen

/-- `processMINF` (mp4_parser.py lines 575-576). -/
def processMINF (box : M Int) (fuel : Nat) (boxLen : Int) : M Int :=
  processChildren box fuel boxLen

/-- `processDINF` (mp4_parser.py lines 639-640). -/
def processDINF (box : M Int) (fuel : Nat) (boxLen : Int) : M Int :=
  processChildren box fuel boxLen

/-- `processSTBL` (mp4_parser.py lines 649-650). -/
def processSTBL (box : M Int) (fuel : Nat) (boxLen : Int) : M Int :=
  processChildren box fuel boxLen

/-- The `for i in range(0, entry_count)` loop of `processDREF` (line 675):
each iteration runs `processChildren(file, box_len - 8)` afresh. -/
def drefLoop (box : M Int) (fuel : Nat) (boxLen : Int) : Nat → M Unit
  | 0 => pure ()
  | n + 1 => do
      let _ ← processChildren box fuel (boxLen - 8)
      drefLoop box fuel boxLen n

/-- Locals of `processDREF`. -/
structure DREFInfo where
  entry_count : Nat
deriving DecidableEq, Repr

/-- `processDREF` (mp4_parser.py lines 663-676): full-box header, 4-byte
`entry_count` (`'>L'`), then `entry_count` whole runs of
`processChildren(file, box_len - 8)`. -/
def processDREF (box : M Int) (fuel : Nat) (boxLen : Int) : M DREFInfo := do
  let _verAndFlags ← readFullBoxHeader
  let rawEntryCount ← readFromFile 4
  let entryCount := beNat rawEntryCount
  drefLoop box fuel boxLen entryCount
  pure ⟨entryCount⟩

/-- Run a processor and drop its value, as the dispatch in `readMp4Box`
does with every `processXXXX(file, ...)` statement. -/
def mdrop {α : Type} (m : M α) : M Unit := do
  let _ ← m
  pure ()

/-- The body of `readMp4Box` (mp4_parser.py lines 717-771) with the decoder
for nested boxes passed in as `recur`.

* The `except FileReadError` around `readBoxHeader` returns
  `err.bytes_read` for every header truncation (printing a message when it
  is nonzero), so truncation there is never re-raised.
* The dispatch tries `box_type in supported_boxes` first, so the
  `elif box_type == 'ftyp'` branch is unreachable for `'ftyp'`.
* Unknown types are skipped with `advanceNBytes(box_size - read_offset)`.
* The trailing `except FormatError as e: print(..., e.box_type)` catches
  `FormatError` and `FileReadError` from the processors, but the handler's
  `e.box_type` attribute access itself raises `AttributeError`; other
  exceptions propagate unchanged.
* On success the function returns `box_size`. -/
def readMp4BoxBody (recur : M Int) (fuel : Nat) : M Int := fun f =>
  match readBoxHeader f with
  | .err (.fileReadError _ _ bytesRead) f' => .ok bytesRead f'
  | .err e f' => .err e f'
  | .ok (boxSize, boxType, readOffset) f' =>
      let boxLen : Int := (boxSize : Int) - (readOffset : Int)
      let body : M Unit :=
        match supported_boxes.lookup boxType with
        | some infoList => processBox boxLen infoList
        | none =>
          if boxType = "ftyp" then mdrop (processFTYP boxLen)
          else if boxType = "moov" then mdrop (processMOOV recur fuel boxLen)
          else if boxType = "mdat" then processMDAT boxLen
          else if boxType = "mvhd" then mdrop (processMVHD boxLen)
          else if boxType = "trak" then mdrop (processTRAK recur fuel boxLen)
          else if boxType = "tkhd" then mdrop (processTKHD boxLen)
          else if boxType = "mdia" then mdrop (processMDIA recur fuel boxLen)
          else if boxType = "mdhd" then mdrop (processMDHD boxLen)
          else if boxType = "hdlr" then mdrop (processHDLR boxLen)
          else if boxType = "minf" then mdrop (processMINF recur fuel boxLen)
          else if boxType = "vmhd" then mdrop (processVMHD boxLen)
          else if boxType = "smhd" then mdrop (processSMHD boxLen)
          else if boxType = "dinf" then mdrop (processDINF recur fuel boxLen)
          else if boxType = "stbl" then mdrop (processSTBL recur fuel boxLen)
          else if boxType = "dref" then mdrop (processDREF recur fuel boxLen)
          else if boxType = "url " then mdrop (processURL boxLen)
          else advanceNBytes boxLen
      match body f' with
      | .ok _ f'' => .ok (boxSize : Int) f''
      | .err e f'' =>
          if e.isFormatError then .err .attributeError f''
          else .err e f''

/-- `readMp4Box` (mp4_parser.py lines 717-771), by fuel recursion: boxes
nested below the current one are decoded with one unit of fuel less. -/
def readMp4Box : Nat → M Int
  | 0 => M.raise .outOfFuel
  | fuel + 1 => readMp4BoxBody (readMp4Box fuel) fuel

/-- The `while readMp4Box(f) > 0: pass` walker of `readMp4File`
(mp4_parser.py lines 775-780); opening the file is outside the model. -/
def readMp4File : Nat → M Unit
  | 0 => M.raise .outOfFuel
  | fuel + 1 => do
      let n ← readMp4Box (fuel + 1)
      if n > 0 then readMp4File fuel else pure ()

/-! Basic lemmas about the byte-source model, used to run the decoders on
symbolic streams. -/

theorem PyFile.rest_advance (f : PyFile) (k : Nat) :
    (f.advance k).rest = f.rest.drop k := by
  simp [PyFile.rest, PyFile.advance, List.drop_drop, Nat.add_comm]

theorem PyFile.advance_advance (f : PyFile) (a b : Nat) :
    (f.advance a).advance b = f.advance (a + b) := by
  simp [PyFile.advance, Nat.add_assoc]

theorem PyFile.advance_zero (f : PyFile) : f.advance 0 = f := by
  simp [PyFile.advance]

theorem take_append_of_length {α : Type} (xs ys : List α) (n : Nat)
    (h : xs.length = n) : (xs ++ ys).take n = xs := by
  subst h; exact List.take_left xs ys

theorem drop_append_of_length {α : Type} (xs ys : List α) (n : Nat)
    (h : xs.length = n) : (xs ++ ys).drop n = ys := by
  subst h; exact List.drop_left xs ys

theorem M.bind_ok {α β : Type} {m : M α} {a : α} {s s' : PyFile}
    (k : α → M β) (h : m s = .ok a s') : (m >>= k) s = k a s' := by
  rw [M.bind_apply, h]

theorem M.bind_err {α β : Type} {m : M α} {e : Err} {s s' : PyFile}
    (k : α → M β) (h : m s = .err e s') : (m >>= k) s = .err e s' := by
  rw [M.bind_apply, h]

/-- A read of exactly the length of the leading segment of the remaining
bytes succeeds, returns that segment, and advances past it. -/
theorem readFromFile_append (f : PyFile) (xs ys : List Nat) (n : Int)
    (hsplit : f.rest = xs ++ ys) (hn : (xs.length : Int) = n) :
    readFromFile n f = .ok xs (f.advance xs.length) := by
  have hn0 : 0 ≤ n := hn ▸ Int.natCast_nonneg _
  have htn : n.toNat = xs.length := by omega
  simp only [readFromFile, fileRead]
  rw [if_neg (show ¬ n < -1 by omega)]
  dsimp only
  rw [if_neg (show ¬ n < 0 by omega), hsplit, htn,
    take_append_of_length xs ys xs.length rfl,
    if_neg (show ¬ ((xs.length : Int) < n) by omega)]

/-- A read request that exceeds the remaining bytes raises `FileReadError`
carrying the requested and obtained counts, after consuming what was left. -/
theorem readFromFile_short (f : PyFile) (n : Int)
    (h : (f.rest.length : Int) < n) :
    readFromFile n f =
      .err (.fileReadError f.name n f.rest.length) (f.advance f.rest.length) := by
  have hn0 : 0 ≤ n := le_trans (Int.natCast_nonneg _) (le_of_lt h)
  have htake : f.rest.take n.toNat = f.rest := List.take_of_length_le (by omega)
  simp only [readFromFile, fileRead]
  rw [if_neg (show ¬ n < -1 by omega)]
  dsimp only
  rw [if_neg (show ¬ n < 0 by omega), htake, if_pos h]

/-- A relative seek by a nonnegative count always succeeds and advances the
position by exactly that count, even past end-of-file. -/
theorem advanceNBytes_ok (f : PyFile) (n : Int) (h : 0 ≤ n) :
    advanceNBytes n f = .ok () (f.advance n.toNat) := by
  have hpos : ((f.pos : Int) + n).toNat = f.pos + n.toNat := by omega
  simp only [advanceNBytes, PyFile.advance]
  rw [if_neg (show ¬ ((f.pos : Int) + n < 0) by omega),
    if_neg (show ¬ ((((f.pos : Int) + n).toNat : Int) - (f.pos : Int) < n) by omega),
    hpos]

set_option maxRecDepth 8000 in
/-- Claim C2: `readBoxHeader`, applied to a byte source positioned at a box
boundary with sufficient bytes, returns `(declared_size, box_type,
header_length)` where `declared_size` is the first 4 bytes read as a
big-endian u32 unless that value equals 1, in which case it is replaced by
the next 8 bytes read as a big-endian u64; `box_type` is the 4 bytes
following the size field decoded as UTF-8 (the hypothesis
`decodeUtf8 ty = some s` expresses that the strict decode succeeds,
yielding `s`); 128 usertype bytes are read and discarded when
`box_type = "uuid"`; and `header_length` is 8, plus 8 more if the 64-bit
size extension was used, plus 128 more if `box_type = "uuid"`, which equals
the number of bytes the call consumed from the stream (the final position
is the initial one advanced by exactly `header_length`).  The second
conjunct covers the decode's error path faithfully: a type tag that is not
valid UTF-8 makes `readBoxHeader` raise `UnicodeDecodeError` after the
8 header bytes, rather than return. -/
theorem readBoxHeader_spec :
    (∀ (sz ty tail : List Nat) (f : PyFile) (s : String),
        f.rest = sz ++ (ty ++ tail) → sz.length = 4 → ty.length = 4 →
        136 ≤ tail.length → decodeUtf8 ty = some s →
        readBoxHeader f =
          .ok ((if beNat sz = 1 then beNat (tail.take 8) else beNat sz), s,
               8 + (if beNat sz = 1 then 8 else 0)
                 + (if s = "uuid" then 128 else 0))
            (f.advance (8 + (if beNat sz = 1 then 8 else 0)
                 + (if s = "uuid" then 128 else 0))))
    ∧ (∀ (sz ty tail : List Nat) (f : PyFile),
        f.rest = sz ++ (ty ++ tail) → sz.length = 4 → ty.length = 4 →
        decodeUtf8 ty = none →
        readBoxHeader f = .err .unicodeDecodeError (f.advance 8)) := by
  constructor
  · intro sz ty tail f s hrest hsz hty htail hdec
    have h1 : readFromFile 4 f = .ok sz (f.advance sz.length) :=
      readFromFile_append f sz (ty ++ tail) 4 hrest (by rw [hsz]; rfl)
    have r1 : (f.advance sz.length).rest = ty ++ tail := by
      rw [PyFile.rest_advance, hrest, drop_append_of_length _ _ _ rfl]
    have h2 : readFromFile 4 (f.advance sz.length) =
        .ok ty ((f.advance sz.length).advance ty.length) :=
      readFromFile_append _ ty tail 4 r1 (by rw [hty]; rfl)
    have r2 : ((f.advance sz.length).advance ty.length).rest = tail := by
      rw [PyFile.rest_advance, r1, drop_append_of_length _ _ _ rfl]
    have hdecr : pyDecodeUtf8 ty ((f.advance sz.length).advance ty.length) =
        .ok s ((f.advance sz.length).advance ty.length) := by
      simp [pyDecodeUtf8, hdec]
    simp only [readBoxHeader]
    rw [M.bind_ok _ h1, M.bind_ok _ h2, M.bind_ok _ hdecr]
    by_cases hone : beNat sz = 1
    · have hsp : tail = tail.take 8 ++ tail.drop 8 :=
        (List.take_append_drop 8 tail).symm
      have h3 : readFromFile 8 ((f.advance sz.length).advance ty.length) =
          .ok (tail.take 8) (((f.advance sz.length).advance ty.length).advance
            (tail.take 8).length) :=
        readFromFile_append _ _ (tail.drop 8) 8 (by rw [r2]; exact hsp)
          (by simp [List.length_take]; omega)
      have hlen8 : (tail.take 8).length = 8 := by simp [List.length_take]; omega
      rw [if_pos hone, M.bind_ok _ h3, M.bind_ok _ (M.pure_apply _ _)]
      by_cases huuid : s = "uuid"
      · have r3 : (((f.advance sz.length).advance ty.length).advance
            (tail.take 8).length).rest = tail.drop 8 := by
          rw [PyFile.rest_advance, r2, hlen8]
        have h4 : readFromFile 128 (((f.advance sz.length).advance
            ty.length).advance (tail.take 8).length) =
            .ok ((tail.drop 8).take 128) ((((f.advance sz.length).advance
              ty.length).advance (tail.take 8).length).advance
              ((tail.drop 8).take 128).length) :=
          readFromFile_append _ _ ((tail.drop 8).drop 128) 128
            (by rw [r3]; exact (List.take_append_drop 128 (tail.drop 8)).symm)
            (by simp [List.length_take, List.length_drop]; omega)
        rw [if_pos huuid, M.bind_ok _ h4, M.bind_ok _ (M.pure_apply _ _)]
        simp only [M.pure_apply, hlen8, PyFile.advance_advance, if_pos hone,
          if_pos huuid, List.length_take, List.length_drop]
        congr 2
        omega
      · rw [if_neg huuid, M.bind_ok _ (M.pure_apply _ _)]
        simp only [M.pure_apply, hlen8, PyFile.advance_advance, if_pos hone,
          if_neg huuid]
        congr 2
        omega
    · rw [if_neg hone, M.bind_ok _ (M.pure_apply _ _)]
      by_cases huuid : s = "uuid"
      · have h4 : readFromFile 128 ((f.advance sz.length).advance ty.length) =
            .ok (tail.take 128) (((f.advance sz.length).advance
              ty.length).advance (tail.take 128).length) :=
          readFromFile_append _ _ (tail.drop 128) 128
            (by rw [r2]; exact (List.take_append_drop 128 tail).symm)
            (by simp [List.length_take]; omega)
        rw [if_pos huuid, M.bind_ok _ h4, M.bind_ok _ (M.pure_apply _ _)]
        simp only [M.pure_apply, PyFile.advance_advance, if_neg hone,
          if_pos huuid, List.length_take]
        congr 2
        omega
      · rw [if_neg huuid, M.bind_ok _ (M.pure_apply _ _)]
        simp only [M.pure_apply, PyFile.advance_advance, if_neg hone,
          if_neg huuid]
        congr 2
        omega
  · intro sz ty tail f hrest hsz hty hdec
    have h1 : readFromFile 4 f = .ok sz (f.advance sz.length) :=
      readFromFile_append f sz (ty ++ tail) 4 hrest (by rw [hsz]; rfl)
    have r1 : (f.advance sz.length).rest = ty ++ tail := by
      rw [PyFile.rest_advance, hrest, drop_append_of_length _ _ _ rfl]
    have h2 : readFromFile 4 (f.advance sz.length) =
        .ok ty ((f.advance sz.length).advance ty.length) :=
      readFromFile_append _ ty tail 4 r1 (by rw [hty]; rfl)
    have hdecr : pyDecodeUtf8 ty ((f.advance sz.length).advance ty.length) =
        .err .unicodeDecodeError
          ((f.advance sz.length).advance ty.length) := by
      simp [pyDecodeUtf8, hdec]
    simp only [readBoxHeader]
    rw [M.bind_ok _ h1, M.bind_ok _ h2, M.bind_err _ hdecr,
      PyFile.advance_advance, hsz, hty]

/-- Witness for claim C2 at concrete streams: a plain `'ftyp'` header of
declared size 20 consumes exactly 8 bytes, and a header whose type tag is
the invalid UTF-8 sequence `[255, 255, 255, 255]` raises
`UnicodeDecodeError` after those 8 bytes. -/
theorem readBoxHeader_spec_witness :
    readBoxHeader ⟨"w", [0, 0, 0, 20] ++ ([102, 116, 121, 112] ++
        List.replicate 136 0), 0⟩ =
      .ok (20, "ftyp", 8)
        (PyFile.advance ⟨"w", [0, 0, 0, 20] ++ ([102, 116, 121, 112] ++
          List.replicate 136 0), 0⟩ 8)
    ∧ readBoxHeader ⟨"w", [0, 0, 0, 20] ++ ([255, 255, 255, 255] ++
        List.replicate 136 0), 0⟩ =
      .err .unicodeDecodeError
        (PyFile.advance ⟨"w", [0, 0, 0, 20] ++ ([255, 255, 255, 255] ++
          List.replicate 136 0), 0⟩ 8) := by
  constructor
  · have h := readBoxHeader_spec.1 [0, 0, 0, 20] [102, 116, 121, 112]
      (List.replicate 136 0)
      ⟨"w", [0, 0, 0, 20] ++ ([102, 116, 121, 112] ++ List.replicate 136 0), 0⟩
      "ftyp" rfl rfl rfl (by simp) (by decide)
    have hone : beNat [0, 0, 0, 20] ≠ 1 := by decide
    have huuid : ("ftyp" : String) ≠ "uuid" := by decide
    rw [if_neg hone, if_neg huuid] at h
    have hval : beNat [0, 0, 0, 20] = 20 := by decide
    rw [hval] at h
    simpa using h
  · exact readBoxHeader_spec.2 [0, 0, 0, 20] [255, 255, 255, 255]
      (List.replicate 136 0)
      ⟨"w", [0, 0, 0, 20] ++ ([255, 255, 255, 255] ++ List.replicate 136 0), 0⟩
      rfl rfl rfl (by decide)

theorem M.bind_assoc {α β γ : Type} (m : M α) (k : α → M β) (k' : β → M γ) :
    (m >>= k) >>= k' = m >>= fun a => k a >>= k' := by
  funext s
  simp only [M.bind_apply]
  cases m s <;> rfl

theorem M.pure_bind {α β : Type} (a : α) (k : α → M β) :
    (pure a : M α) >>= k = k a := by
  funext s
  rfl

/-- The accumulator of the `processChildren` loop never stops below the
byte budget: whenever the loop returns normally, the accumulated size is at
least `numBytes` (the loop condition `child_size < num_bytes` has become
false); the budget can be overshot without any error. -/
theorem processChildrenLoop_ge (box : M Int) :
    ∀ (fuel : Nat) (childSize numBytes : Int) (f : PyFile) (r : Int)
      (f' : PyFile),
      processChildrenLoop box fuel childSize numBytes f = .ok r f' →
      numBytes ≤ r := by
  intro fuel
  induction fuel with
  | zero =>
      intro cs nb f r f' h
      simp [processChildrenLoop, M.raise] at h
  | succ n ih =>
      intro cs nb f r f' h
      rw [processChildrenLoop] at h
      by_cases hlt : cs < nb
      · rw [if_pos hlt, M.bind_apply] at h
        cases hbox : box f with
        | ok s f1 => rw [hbox] at h; exact ih _ _ _ _ _ h
        | err e f1 => rw [hbox] at h; exact absurd h (by simp)
      · rw [if_neg hlt, M.pure_apply] at h
        cases h
        omega

/-- Claim C3 (amended): `processChildren` with payload budget `N`
repeatedly invokes the box decoder, accumulating each child's consumed
size, until the cumulative size is at least `N`; for children of sizes
`[10, 12, 14]` exactly filling a budget of 36 the total accumulated is
`10 + 12 + 14 = 36`.  A child whose size would overshoot the remaining
payload is not detected: the loop simply stops with a cumulative size
greater than `N` and raises no error (see the counterexample theorem). -/
theorem processChildren_budget :
    (∀ (fuel : Nat) (numBytes : Int) (f : PyFile) (r : Int) (f' : PyFile),
        processChildren (readMp4Box fuel) fuel numBytes f = .ok r f' →
        numBytes ≤ r)
    ∧ processChildren (readMp4Box 5) 5 36
        ⟨"t", [0, 0, 0, 10, 102, 114, 101, 101, 1, 2,
               0, 0, 0, 12, 102, 114, 101, 101, 1, 2, 3, 4,
               0, 0, 0, 14, 102, 114, 101, 101, 1, 2, 3, 4, 5, 6], 0⟩ =
      .ok 36
        ⟨"t", [0, 0, 0, 10, 102, 114, 101, 101, 1, 2,
               0, 0, 0, 12, 102, 114, 101, 101, 1, 2, 3, 4,
               0, 0, 0, 14, 102, 114, 101, 101, 1, 2, 3, 4, 5, 6], 36⟩ := by
  constructor
  · intro fuel numBytes f r f' h
    exact processChildrenLoop_ge (readMp4Box fuel) fuel 0 numBytes f r f' h
  · rfl

/-- Witness for claim C3: the general budget bound applied to the concrete
exactly-filling run of three children. -/
theorem processChildren_budget_witness : (36 : Int) ≤ 36 :=
  processChildren_budget.1 5 36
    ⟨"t", [0, 0, 0, 10, 102, 114, 101, 101, 1, 2,
           0, 0, 0, 12, 102, 114, 101, 101, 1, 2, 3, 4,
           0, 0, 0, 14, 102, 114, 101, 101, 1, 2, 3, 4, 5, 6], 0⟩ 36
    ⟨"t", [0, 0, 0, 10, 102, 114, 101, 101, 1, 2,
           0, 0, 0, 12, 102, 114, 101, 101, 1, 2, 3, 4,
           0, 0, 0, 14, 102, 114, 101, 101, 1, 2, 3, 4, 5, 6], 36⟩
    processChildren_budget.2

/-- Counterexample for claim C3 as stated: under a payload budget of 6, a
child box of declared size 10 is decoded with no format error; the loop
returns accumulated size 10, silently overshooting the budget. -/
theorem processChildren_overshoot_no_error :
    processChildren (readMp4Box 5) 5 6
        ⟨"t", [0, 0, 0, 10, 102, 114, 101, 101, 1, 2], 0⟩ =
      .ok 10 ⟨"t", [0, 0, 0, 10, 102, 114, 101, 101, 1, 2], 10⟩ := by
  rfl

/-- Claim C4 (amended): if the very first 4-byte size read of a top-level
box header obtains 0 bytes, `readMp4Box` treats this as ordinary
end-of-stream, returning 0 and raising no error; any other truncation
while reading a box header is also caught by the same handler, which logs
it and returns the obtained byte count of the failed read (here a 5-byte
stream yields 1, the single byte obtained by the type-tag read), rather
than raising a hard format error. -/
theorem readMp4Box_header_truncation :
    (∀ (fuel : Nat) (f : PyFile), f.rest = [] →
        readMp4Box (fuel + 1) f = .ok 0 f)
    ∧ readMp4Box 3 ⟨"t", [0, 0, 0, 99, 1], 0⟩ =
        .ok 1 ⟨"t", [0, 0, 0, 99, 1], 5⟩ := by
  constructor
  · intro fuel f h
    have hlen : (f.rest.length : Int) < 4 := by rw [h]; simp
    have hs : readFromFile 4 f =
        .err (.fileReadError f.name 4 0) (f.advance 0) := by
      have hshort := readFromFile_short f 4 hlen
      rwa [h] at hshort
    have hh : readBoxHeader f =
        .err (.fileReadError f.name 4 0) (f.advance 0) := by
      simp only [readBoxHeader]
      rw [M.bind_err _ hs]
    rw [readMp4Box]
    simp only [readMp4BoxBody]
    rw [hh, PyFile.advance_zero]
  · rfl

/-- Witness for claim C4: the end-of-stream case at a concrete empty
stream. -/
theorem readMp4Box_header_truncation_witness :
    readMp4Box 1 ⟨"w2", [], 0⟩ = .ok 0 ⟨"w2", [], 0⟩ :=
  readMp4Box_header_truncation.1 0 ⟨"w2", [], 0⟩ rfl

/-- Counterexample for claim C4 as stated: a 6-byte stream truncates the
header's type-tag read (4 bytes requested, 2 obtained), yet `readMp4Box`
raises no error at all — it returns the obtained count 2 (a value the file
walker then treats like a consumed box), instead of a hard format error. -/
theorem readMp4Box_truncation_not_error :
    readMp4Box 3 ⟨"t", [0, 0, 0, 99, 1, 2], 0⟩ =
      .ok 2 ⟨"t", [0, 0, 0, 99, 1, 2], 6⟩ := by
  rfl

/-- Claim C1: a `'dref'` box of declared size 20 (header length 8, so a
12-byte payload: version/flags, `entry_count = 0`, and 4 further payload
bytes) decodes without any error, yet `processDREF` consumes only 8 of the
12 payload bytes — the final position is 16, not 20 — because the
`for i in range(0, entry_count)` loop around `processChildren(file,
box_len - 8)` runs `entry_count` times instead of consuming the fixed
remaining payload (for `entry_count = 0` it consumes nothing).  The last
conjunct records the mismatch: payload consumed `16 - 8 = 8` differs from
`S - H = 20 - 8 = 12`. -/
theorem processDREF_wrong_consumption :
    readMp4Box 3 ⟨"t", [0, 0, 0, 20, 100, 114, 101, 102,
                        0, 0, 0, 0, 0, 0, 0, 0, 9, 9, 9, 9], 0⟩ =
      .ok 20 ⟨"t", [0, 0, 0, 20, 100, 114, 101, 102,
                    0, 0, 0, 0, 0, 0, 0, 0, 9, 9, 9, 9], 16⟩
    ∧ (16 - 8 : Int) ≠ 20 - 8 := by
  exact ⟨rfl, by decide⟩

/-- Claim C6: for each of `mvhd`, `tkhd` and `mdhd`, a version byte other
than 0 makes decoding fail — but with `Err.typeError`, not a
`FormatError`: the bare `raise FormatError` statements at mp4_parser.py
lines 295, 399 and 507 instantiate `FormatError()` without its required
`filename` argument, so CPython raises `TypeError` at the raise site. -/
theorem version1_raises_typeError :
    processMVHD 92 ⟨"t", [1, 0, 0, 0], 0⟩ =
      .err .typeError ⟨"t", [1, 0, 0, 0], 4⟩
    ∧ processTKHD 84 ⟨"t", [1, 0, 0, 0], 0⟩ =
      .err .typeError ⟨"t", [1, 0, 0, 0], 4⟩
    ∧ processMDHD 24 ⟨"t", [1, 0, 0, 0], 0⟩ =
      .err .typeError ⟨"t", [1, 0, 0, 0], 4⟩ := by
  exact ⟨rfl, rfl, rfl⟩

/-- Claim C7 (amended): `processFTYP` does raise `FormatError('ftyp')` —
before consuming any payload — whenever the payload length is not a
multiple of 4; but `'ftyp'` is a key of `supported_boxes`, so `readMp4Box`
dispatches `ftyp` boxes to the schema-driven `processBox` (which performs
no multiple-of-4 check) and the `elif box_type == 'ftyp'` branch is
unreachable: no format error is raised when such a box is actually
decoded (see the counterexample theorem). -/
theorem processFTYP_mod4_check :
    (∀ (boxLen : Int) (f : PyFile), boxLen % 4 ≠ 0 →
        processFTYP boxLen f = .err (.formatError "ftyp") f)
    ∧ (supported_boxes.lookup "ftyp").isSome = true := by
  constructor
  · intro boxLen f h
    simp only [processFTYP]
    rw [if_pos h]
    rfl
  · rfl

/-- Witness for claim C7: the `processFTYP` check at the concrete payload
length 6. -/
theorem processFTYP_mod4_check_witness :
    processFTYP 6 ⟨"w3", [1, 2, 3, 4, 5, 6], 0⟩ =
      .err (.formatError "ftyp") ⟨"w3", [1, 2, 3, 4, 5, 6], 0⟩ :=
  processFTYP_mod4_check.1 6 ⟨"w3", [1, 2, 3, 4, 5, 6], 0⟩ (by decide)

/-- Counterexample for claim C7 as stated: a `'ftyp'` box of declared size
18 (payload length 10, not a multiple of 4) is decoded by `readMp4Box` with
no error whatsoever — the dispatch routes it to the schema-driven
`processBox`, which reads its two 4-byte fields and then the remaining
`10 - 8 = 2` bytes for the fill-to-end field, never checking the
multiple-of-4 property — so the decode returns the declared size 18
normally instead of raising the claimed format error. -/
theorem ftyp_mod4_not_raised :
    readMp4Box 3 ⟨"t", [0, 0, 0, 18, 102, 116, 121, 112,
                        1, 2, 3, 4, 5, 6, 7, 8, 9, 10], 0⟩ =
      .ok 18 ⟨"t", [0, 0, 0, 18, 102, 116, 121, 112,
                    1, 2, 3, 4, 5, 6, 7, 8, 9, 10], 18⟩ := by
  rfl

/-- Claim C8: a successfully decoded box produces no attribute mapping at
all: `readMp4Box` returns only the integer `box_size` (here, 8 for an
unknown `'free'` box), and every processor returns `None` in the source —
`processFTYP` line 207 is `return` with the TODO comment
`return a container with all of these in them`.  The run below documents
the actual return value on a minimal successfully-decoded box. -/
theorem readMp4Box_returns_only_size :
    readMp4Box 2 ⟨"t", [0, 0, 0, 8, 102, 114, 101, 101], 0⟩ =
      .ok 8 ⟨"t", [0, 0, 0, 8, 102, 114, 101, 101], 8⟩ := by
  rfl

/-- Claim C9: `advanceNBytes` over a 3-byte stream asked to skip 10 bytes
raises nothing: the relative `file.seek` succeeds past end-of-file, so
`end_offset - start_offset` equals `num_bytes` and the guard never fires
(and the guard's own `raise` names the undefined variable `actual_bytes`).
The claimed `TruncatedRead`-style failure does not occur. -/
theorem advanceNBytes_no_truncation_error :
    advanceNBytes 10 ⟨"t", [1, 2, 3], 0⟩ = .ok () ⟨"t", [1, 2, 3], 10⟩
    ∧ (⟨"t", [1, 2, 3], 0⟩ : PyFile).rest.length < 10 := by
  exact ⟨rfl, by decide⟩

/-- Modelled from the spec: the set of all field names declared anywhere in
the Schema Registry (spec section 4.6); the only schema registry in the
source is `supported_boxes`. -/
def schemaFieldNames : List String :=
  supported_boxes.foldr (fun entry acc => entry.2.items.map SchemaItem.name ++ acc) []

/-- Modelled from the spec: the lookup-time validation error `UnknownField`
(spec section 7), raised when a requested field name is not produced by any
schema. -/
inductive LookupErr where
  | unknownField
deriving DecidableEq, Repr

/-- Modelled from the spec: the walk of `find_field` over the merged
attribute mappings of the top-level boxes, returning the value of the first
mapping containing the key and stopping there (spec section 4.6). -/
def findFieldWalk {α : Type} (fieldName : String) :
    List (List (String × α)) → Option α
  | [] => none
  | m :: ms =>
      match m.lookup fieldName with
      | some v => some v
      | none => findFieldWalk fieldName ms

/-- Modelled from the spec: `findMp4Field(source, field_name)` is called
from parse_videos.py line 30 but is defined nowhere under src/; following
spec section 4.6 it first validates `field_name` against the registry's
field names, failing fast with `UnknownField`, and otherwise walks the
top-level boxes' merged attribute mappings (given here in place of the
byte source, since the mapping-producing decoder is also absent from
src/). -/
def findMp4Field {α : Type} (mappings : List (List (String × α)))
    (fieldName : String) : Except LookupErr (Option α) :=
  if fieldName ∈ schemaFieldNames then .ok (findFieldWalk fieldName mappings)
  else .error .unknownField

/-- Claim C5: `findMp4Field` first validates the field name against the
set of all field names declared anywhere in the schema registry, failing
fast with the lookup-time unknown-field error when no schema produces that
name (regardless of the file's contents); otherwise it walks the top-level
boxes and returns the value of the first merged attribute mapping
containing a key equal to the field name, stopping at the first match
across the whole file. -/
theorem findMp4Field_spec :
    (∀ (α : Type) (mappings : List (List (String × α))) (fieldName : String),
        fieldName ∉ schemaFieldNames →
        findMp4Field mappings fieldName = .error .unknownField)
    ∧ (∀ (α : Type) (ms1 : List (List (String × α))) (m : List (String × α))
          (ms2 : List (List (String × α))) (fieldName : String) (v : α),
        fieldName ∈ schemaFieldNames →
        (∀ m' ∈ ms1, m'.lookup fieldName = none) →
        m.lookup fieldName = some v →
        findMp4Field (ms1 ++ m :: ms2) fieldName = .ok (some v)) := by
  constructor
  · intro α mappings fieldName h
    simp only [findMp4Field]
    rw [if_neg h]
  · intro α ms1 m ms2 fieldName v hmem hnone hfound
    simp only [findMp4Field]
    rw [if_pos hmem]
    congr 1
    induction ms1 with
    | nil => simp [findFieldWalk, hfound]
    | cons m' ms1' ih =>
        have h' : m'.lookup fieldName = none := hnone m' (by simp)
        simp only [List.cons_append, findFieldWalk, h']
        exact ih (fun x hx => hnone x (by simp [hx]))

/-- Witness for claim C5: the fail-fast branch at the name
`"creation_time"` (declared by no schema in `supported_boxes`) and the
first-match branch at `"major_brand"`. -/
theorem findMp4Field_spec_witness :
    findMp4Field ([[("x", 1)]] : List (List (String × Int))) "creation_time" =
      .error .unknownField
    ∧ findMp4Field ([[("minor_version", 1)], [("major_brand", 7)],
        [("major_brand", 9)]] : List (List (String × Int))) "major_brand" =
      .ok (some 7) := by
  constructor
  · exact findMp4Field_spec.1 Int [[("x", 1)]] "creation_time" (by decide)
  · exact findMp4Field_spec.2 Int [[("minor_version", 1)]] [("major_brand", 7)]
      [[("major_brand", 9)]] "major_brand" 7 (by decide)
      (by intro m' hm'; simp at hm'; subst hm'; rfl) rfl

/-- A read of `n` bytes succeeds returning the leading segment `xs` of the
remaining bytes when `xs` has exactly length `k = n`. -/
theorem readFromFile_seg (f : PyFile) (xs ys : List Nat) (n : Int) (k : Nat)
    (hsplit : f.rest = xs ++ ys) (hlen : xs.length = k) (hk : (k : Int) = n) :
    readFromFile n f = .ok xs (f.advance k) := by
  have := readFromFile_append f xs ys n hsplit (by rw [hlen]; exact hk)
  rwa [hlen] at this

/-- Running `readFullBoxHeader` on a stream beginning with a version byte
and three flag bytes. -/
theorem readFullBoxHeader_run (f : PyFile) (v g1 g2 g3 : Nat) (t : List Nat)
    (h : f.rest = v :: g1 :: g2 :: g3 :: t) :
    readFullBoxHeader f = .ok (v, (g1, g2, g3)) (f.advance 4) := by
  have h1 : readFromFile 1 f = .ok [v] (f.advance 1) :=
    readFromFile_seg f [v] (g1 :: g2 :: g3 :: t) 1 1 (by rw [h]; rfl) rfl rfl
  have r1 : (f.advance 1).rest = g1 :: g2 :: g3 :: t := by
    rw [PyFile.rest_advance, h]; rfl
  have h2 : readFromFile 3 (f.advance 1) =
      .ok [g1, g2, g3] ((f.advance 1).advance 3) :=
    readFromFile_seg (f.advance 1) [g1, g2, g3] t 3 3 (by rw [r1]; rfl) rfl rfl
  simp only [readFullBoxHeader]
  rw [M.bind_ok _ h1, M.bind_ok _ h2]
  simp [PyFile.advance_advance, beNat]

theorem PyFile.rest_advance_add (f : PyFile) (a b : Nat) :
    (f.advance (a + b)).rest = (f.advance a).rest.drop b := by
  rw [← PyFile.advance_advance, PyFile.rest_advance]

/-- Running `processMVHD` on a version-0 stream: symbolic field bytes `ct`,
`mt`, `ts` followed by at least 84 further payload bytes; the three `'>l'`
fields decode through `signed32` and exactly 100 bytes are consumed. -/
theorem processMVHD_run (blen : Int) (f : PyFile) (g1 g2 g3 : Nat)
    (ct mt ts tail : List Nat)
    (hrest : f.rest = 0 :: g1 :: g2 :: g3 :: (ct ++ (mt ++ (ts ++ tail))))
    (hct : ct.length = 4) (hmt : mt.length = 4) (hts : ts.length = 4)
    (htail : 84 ≤ tail.length) :
    processMVHD blen f =
      .ok ⟨signed32 ct, signed32 mt, signed32 ts, beNat (tail.take 4),
           signed32 ((tail.drop 4).take 4), signed16 ((tail.drop 8).take 2),
           (chunk4 ((tail.drop 20).take 36)).map beNat,
           beNat ((tail.drop 80).take 4)⟩
        (f.advance 100) := by
  have hhdr : readFullBoxHeader f = .ok (0, (g1, g2, g3)) (f.advance 4) :=
    readFullBoxHeader_run f 0 g1 g2 g3 _ hrest
  have r1 : (f.advance 4).rest = ct ++ (mt ++ (ts ++ tail)) := by
    rw [PyFile.rest_advance, hrest]; rfl
  have hctr : readFromFile 4 (f.advance 4) = .ok ct (f.advance 8) := by
    have := readFromFile_seg _ ct (mt ++ (ts ++ tail)) 4 4 r1 hct rfl
    simpa [PyFile.advance_advance] using this
  have r2 : (f.advance 8).rest = mt ++ (ts ++ tail) := by
    rw [show (8 : Nat) = 4 + 4 by rfl, PyFile.rest_advance_add, r1,
      drop_append_of_length _ _ _ hct]
  have hmtr : readFromFile 4 (f.advance 8) = .ok mt (f.advance 12) := by
    have := readFromFile_seg _ mt (ts ++ tail) 4 4 r2 hmt rfl
    simpa [PyFile.advance_advance] using this
  have r3 : (f.advance 12).rest = ts ++ tail := by
    rw [show (12 : Nat) = 8 + 4 by rfl, PyFile.rest_advance_add, r2,
      drop_append_of_length _ _ _ hmt]
  have htsr : readFromFile 4 (f.advance 12) = .ok ts (f.advance 16) := by
    have := readFromFile_seg _ ts tail 4 4 r3 hts rfl
    simpa [PyFile.advance_advance] using this
  have r4 : (f.advance 16).rest = tail := by
    rw [show (16 : Nat) = 12 + 4 by rfl, PyFile.rest_advance_add, r3,
      drop_append_of_length _ _ _ hts]
  have hdur : readFromFile 4 (f.advance 16) =
      .ok (tail.take 4) (f.advance 20) := by
    have := readFromFile_seg _ (tail.take 4) (tail.drop 4) 4 4
      (by rw [r4]; exact (List.take_append_drop 4 tail).symm)
      (by simp [List.length_take]; omega) rfl
    simpa [PyFile.advance_advance] using this
  have r5 : (f.advance 20).rest = tail.drop 4 := by
    rw [show (20 : Nat) = 16 + 4 by rfl, PyFile.rest_advance_add, r4]
  have hrate : readFromFile 4 (f.advance 20) =
      .ok ((tail.drop 4).take 4) (f.advance 24) := by
    have := readFromFile_seg _ ((tail.drop 4).take 4) ((tail.drop 4).drop 4)
      4 4 (by rw [r5]; exact (List.take_append_drop 4 (tail.drop 4)).symm)
      (by simp [List.length_take, List.length_drop]; omega) rfl
    simpa [PyFile.advance_advance] using this
  have r6 : (f.advance 24).rest = tail.drop 8 := by
    rw [show (24 : Nat) = 20 + 4 by rfl, PyFile.rest_advance_add, r5]
    simp [List.drop_drop]
  have hvol : readFromFile 2 (f.advance 24) =
      .ok ((tail.drop 8).take 2) (f.advance 26) := by
    have := readFromFile_seg _ ((tail.drop 8).take 2) ((tail.drop 8).drop 2)
      2 2 (by rw [r6]; exact (List.take_append_drop 2 (tail.drop 8)).symm)
      (by simp [List.length_take, List.length_drop]; omega) rfl
    simpa [PyFile.advance_advance] using this
  have r7 : (f.advance 26).rest = tail.drop 10 := by
    rw [show (26 : Nat) = 24 + 2 by rfl, PyFile.rest_advance_add, r6]
    simp [List.drop_drop]
  have hskip10 : advanceNBytes 10 (f.advance 26) = .ok () (f.advance 36) := by
    have := advanceNBytes_ok (f.advance 26) 10 (by omega)
    simpa [PyFile.advance_advance] using this
  have r8 : (f.advance 36).rest = tail.drop 20 := by
    rw [show (36 : Nat) = 26 + 10 by rfl, PyFile.rest_advance_add, r7]
    simp [List.drop_drop]
  have hmat : readFromFile 36 (f.advance 36) =
      .ok ((tail.drop 20).take 36) (f.advance 72) := by
    have := readFromFile_seg _ ((tail.drop 20).take 36)
      ((tail.drop 20).drop 36) 36 36
      (by rw [r8]; exact (List.take_append_drop 36 (tail.drop 20)).symm)
      (by simp [List.length_take, List.length_drop]; omega) rfl
    simpa [PyFile.advance_advance] using this
  have r9 : (f.advance 72).rest = tail.drop 56 := by
    rw [show (72 : Nat) = 36 + 36 by rfl, PyFile.rest_advance_add, r8]
    simp [List.drop_drop]
  have hskip24 : advanceNBytes 24 (f.advance 72) = .ok () (f.advance 96) := by
    have := advanceNBytes_ok (f.advance 72) 24 (by omega)
    simpa [PyFile.advance_advance] using this
  have r10 : (f.advance 96).rest = tail.drop 80 := by
    rw [show (96 : Nat) = 72 + 24 by rfl, PyFile.rest_advance_add, r9]
    simp [List.drop_drop]
  have hnext : readFromFile 4 (f.advance 96) =
      .ok ((tail.drop 80).take 4) (f.advance 100) := by
    have := readFromFile_seg _ ((tail.drop 80).take 4) ((tail.drop 80).drop 4)
      4 4 (by rw [r10]; exact (List.take_append_drop 4 (tail.drop 80)).symm)
      (by simp [List.length_take, List.length_drop]; omega) rfl
    simpa [PyFile.advance_advance] using this
  simp only [processMVHD, M.bind_apply, M.pure_apply, hhdr, hctr, hmtr, htsr,
    hdur, hrate, hvol, hskip10, hmat, hskip24, hnext, eq_self_iff_true,
    if_true]

/-- Running `processTKHD` on a version-0 stream: symbolic `creation_time`
and `modification_time` bytes followed by at least 72 further payload
bytes; both `'>l'` fields decode through `signed32` and exactly 84 bytes
are consumed. -/
theorem processTKHD_run (blen : Int) (f : PyFile) (g1 g2 g3 : Nat)
    (ct mt tail : List Nat)
    (hrest : f.rest = 0 :: g1 :: g2 :: g3 :: (ct ++ (mt ++ tail)))
    (hct : ct.length = 4) (hmt : mt.length = 4) (htail : 72 ≤ tail.length) :
    processTKHD blen f =
      .ok ⟨signed32 ct, signed32 mt, signed32 (tail.take 4),
           beNat ((tail.drop 8).take 4), signed16 ((tail.drop 20).take 2),
           signed16 ((tail.drop 22).take 2), signed16 ((tail.drop 24).take 2),
           (chunk4 ((tail.drop 28).take 36)).map beNat,
           signed32 ((tail.drop 64).take 4), signed32 ((tail.drop 68).take 4)⟩
        (f.advance 84) := by
  have hhdr : readFullBoxHeader f = .ok (0, (g1, g2, g3)) (f.advance 4) :=
    readFullBoxHeader_run f 0 g1 g2 g3 _ hrest
  have r1 : (f.advance 4).rest = ct ++ (mt ++ tail) := by
    rw [PyFile.rest_advance, hrest]; rfl
  have hctr : readFromFile 4 (f.advance 4) = .ok ct (f.advance 8) := by
    have := readFromFile_seg _ ct (mt ++ tail) 4 4 r1 hct rfl
    simpa [PyFile.advance_advance] using this
  have r2 : (f.advance 8).rest = mt ++ tail := by
    rw [show (8 : Nat) = 4 + 4 by rfl, PyFile.rest_advance_add, r1,
      drop_append_of_length _ _ _ hct]
  have hmtr : readFromFile 4 (f.advance 8) = .ok mt (f.advance 12) := by
    have := readFromFile_seg _ mt tail 4 4 r2 hmt rfl
    simpa [PyFile.advance_advance] using this
  have r3 : (f.advance 12).rest = tail := by
    rw [show (12 : Nat) = 8 + 4 by rfl, PyFile.rest_advance_add, r2,
      drop_append_of_length _ _ _ hmt]
  have htrk : readFromFile 4 (f.advance 12) =
      .ok (tail.take 4) (f.advance 16) := by
    have := readFromFile_seg _ (tail.take 4) (tail.drop 4) 4 4
      (by rw [r3]; exact (List.take_append_drop 4 tail).symm)
      (by simp [List.length_take]; omega) rfl
    simpa [PyFile.advance_advance] using this
  have hskip4 : advanceNBytes 4 (f.advance 16) = .ok () (f.advance 20) := by
    have := advanceNBytes_ok (f.advance 16) 4 (by omega)
    simpa [PyFile.advance_advance] using this
  have r5 : (f.advance 20).rest = tail.drop 8 := by
    rw [show (20 : Nat) = 12 + 8 by rfl, PyFile.rest_advance_add, r3]
  have hdur : readFromFile 4 (f.advance 20) =
      .ok ((tail.drop 8).take 4) (f.advance 24) := by
    have := readFromFile_seg _ ((tail.drop 8).take 4) ((tail.drop 8).drop 4)
      4 4 (by rw [r5]; exact (List.take_append_drop 4 (tail.drop 8)).symm)
      (by simp [List.length_take, List.length_drop]; omega) rfl
    simpa [PyFile.advance_advance] using this
  have hskip8 : advanceNBytes 8 (f.advance 24) = .ok () (f.advance 32) := by
    have := advanceNBytes_ok (f.advance 24) 8 (by omega)
    simpa [PyFile.advance_advance] using this
  have r7 : (f.advance 32).rest = tail.drop 20 := by
    rw [show (32 : Nat) = 20 + 12 by rfl, PyFile.rest_advance_add, r5]
    simp [List.drop_drop]
  have hlay : readFromFile 2 (f.advance 32) =
      .ok ((tail.drop 20).take 2) (f.advance 34) := by
    have := readFromFile_seg _ ((tail.drop 20).take 2) ((tail.drop 20).drop 2)
      2 2 (by rw [r7]; exact (List.take_append_drop 2 (tail.drop 20)).symm)
      (by simp [List.length_take, List.length_drop]; omega) rfl
    simpa [PyFile.advance_advance] using this
  have r8 : (f.advance 34).rest = tail.drop 22 := by
    rw [show (34 : Nat) = 32 + 2 by rfl, PyFile.rest_advance_add, r7]
    simp [List.drop_drop]
  have halt : readFromFile 2 (f.advance 34) =
      .ok ((tail.drop 22).take 2) (f.advance 36) := by
    have := readFromFile_seg _ ((tail.drop 22).take 2) ((tail.drop 22).drop 2)
      2 2 (by rw [r8]; exact (List.take_append_drop 2 (tail.drop 22)).symm)
      (by simp [List.length_take, List.length_drop]; omega) rfl
    simpa [PyFile.advance_advance] using this
  have r9 : (f.advance 36).rest = tail.drop 24 := by
    rw [show (36 : Nat) = 34 + 2 by rfl, PyFile.rest_advance_add, r8]
    simp [List.drop_drop]
  have hvol : readFromFile 2 (f.advance 36) =
      .ok ((tail.drop 24).take 2) (f.advance 38) := by
    have := readFromFile_seg _ ((tail.drop 24).take 2) ((tail.drop 24).drop 2)
      2 2 (by rw [r9]; exact (List.take_append_drop 2 (tail.drop 24)).symm)
      (by simp [List.length_take, List.length_drop]; omega) rfl
    simpa [PyFile.advance_advance] using this
  have hskip2 : advanceNBytes 2 (f.advance 38) = .ok () (f.advance 40) := by
    have := advanceNBytes_ok (f.advance 38) 2 (by omega)
    simpa [PyFile.advance_advance] using this
  have r11 : (f.advance 40).rest = tail.drop 28 := by
    rw [show (40 : Nat) = 36 + 4 by rfl, PyFile.rest_advance_add, r9]
    simp [List.drop_drop]
  have hmat : readFromFile 36 (f.advance 40) =
      .ok ((tail.drop 28).take 36) (f.advance 76) := by
    have := readFromFile_seg _ ((tail.drop 28).take 36)
      ((tail.drop 28).drop 36) 36 36
      (by rw [r11]; exact (List.take_append_drop 36 (tail.drop 28)).symm)
      (by simp [List.length_take, List.length_drop]; omega) rfl
    simpa [PyFile.advance_advance] using this
  have r12 : (f.advance 76).rest = tail.drop 64 := by
    rw [show (76 : Nat) = 40 + 36 by rfl, PyFile.rest_advance_add, r11]
    simp [List.drop_drop]
  have hwid : readFromFile 4 (f.advance 76) =
      .ok ((tail.drop 64).take 4) (f.advance 80) := by
    have := readFromFile_seg _ ((tail.drop 64).take 4) ((tail.drop 64).drop 4)
      4 4 (by rw [r12]; exact (List.take_append_drop 4 (tail.drop 64)).symm)
      (by simp [List.length_take, List.length_drop]; omega) rfl
    simpa [PyFile.advance_advance] using this
  have r13 : (f.advance 80).rest = tail.drop 68 := by
    rw [show (80 : Nat) = 76 + 4 by rfl, PyFile.rest_advance_add, r12]
    simp [List.drop_drop]
  have hhei : readFromFile 4 (f.advance 80) =
      .ok ((tail.drop 68).take 4) (f.advance 84) := by
    have := readFromFile_seg _ ((tail.drop 68).take 4) ((tail.drop 68).drop 4)
      4 4 (by rw [r13]; exact (List.take_append_drop 4 (tail.drop 68)).symm)
      (by simp [List.length_take, List.length_drop]; omega) rfl
    simpa [PyFile.advance_advance] using this
  simp only [processTKHD, M.bind_apply, M.pure_apply, hhdr, hctr, hmtr, htrk,
    hskip4, hdur, hskip8, hlay, halt, hvol, hskip2, hmat, hwid, hhei,
    eq_self_iff_true, if_true]

/-- Running `processMDHD` on a version-0 stream: symbolic field bytes `ct`,
`mt`, `ts` followed by at least 8 further payload bytes; the three `'>l'`
fields decode through `signed32` and exactly 24 bytes are consumed. -/
theorem processMDHD_run (blen : Int) (f : PyFile) (g1 g2 g3 : Nat)
    (ct mt ts tail : List Nat)
    (hrest : f.rest = 0 :: g1 :: g2 :: g3 :: (ct ++ (mt ++ (ts ++ tail))))
    (hct : ct.length = 4) (hmt : mt.length = 4) (hts : ts.length = 4)
    (htail : 8 ≤ tail.length) :
    processMDHD blen f =
      .ok ⟨signed32 ct, signed32 mt, signed32 ts, beNat (tail.take 4),
           beNat ((tail.drop 4).take 2)⟩
        (f.advance 24) := by
  have hhdr : readFullBoxHeader f = .ok (0, (g1, g2, g3)) (f.advance 4) :=
    readFullBoxHeader_run f 0 g1 g2 g3 _ hrest
  have r1 : (f.advance 4).rest = ct ++ (mt ++ (ts ++ tail)) := by
    rw [PyFile.rest_advance, hrest]; rfl
  have hctr : readFromFile 4 (f.advance 4) = .ok ct (f.advance 8) := by
    have := readFromFile_seg _ ct (mt ++ (ts ++ tail)) 4 4 r1 hct rfl
    simpa [PyFile.advance_advance] using this
  have r2 : (f.advance 8).rest = mt ++ (ts ++ tail) := by
    rw [show (8 : Nat) = 4 + 4 by rfl, PyFile.rest_advance_add, r1,
      drop_append_of_length _ _ _ hct]
  have hmtr : readFromFile 4 (f.advance 8) = .ok mt (f.advance 12) := by
    have := readFromFile_seg _ mt (ts ++ tail) 4 4 r2 hmt rfl
    simpa [PyFile.advance_advance] using this
  have r3 : (f.advance 12).rest = ts ++ tail := by
    rw [show (12 : Nat) = 8 + 4 by rfl, PyFile.rest_advance_add, r2,
      drop_append_of_length _ _ _ hmt]
  have htsr : readFromFile 4 (f.advance 12) = .ok ts (f.advance 16) := by
    have := readFromFile_seg _ ts tail 4 4 r3 hts rfl
    simpa [PyFile.advance_advance] using this
  have r4 : (f.advance 16).rest = tail := by
    rw [show (16 : Nat) = 12 + 4 by rfl, PyFile.rest_advance_add, r3,
      drop_append_of_length _ _ _ hts]
  have hdur : readFromFile 4 (f.advance 16) =
      .ok (tail.take 4) (f.advance 20) := by
    have := readFromFile_seg _ (tail.take 4) (tail.drop 4) 4 4
      (by rw [r4]; exact (List.take_append_drop 4 tail).symm)
      (by simp [List.length_take]; omega) rfl
    simpa [PyFile.advance_advance] using this
  have r5 : (f.advance 20).rest = tail.drop 4 := by
    rw [show (20 : Nat) = 16 + 4 by rfl, PyFile.rest_advance_add, r4]
  have hlang : readFromFile 2 (f.advance 20) =
      .ok ((tail.drop 4).take 2) (f.advance 22) := by
    have := readFromFile_seg _ ((tail.drop 4).take 2) ((tail.drop 4).drop 2)
      2 2 (by rw [r5]; exact (List.take_append_drop 2 (tail.drop 4)).symm)
      (by simp [List.length_take, List.length_drop]; omega) rfl
    simpa [PyFile.advance_advance] using this
  have hskip2 : advanceNBytes 2 (f.advance 22) = .ok () (f.advance 24) := by
    have := advanceNBytes_ok (f.advance 22) 2 (by omega)
    simpa [PyFile.advance_advance] using this
  simp only [processMDHD, M.bind_apply, M.pure_apply, hhdr, hctr, hmtr, htsr,
    hdur, hlang, hskip2, eq_self_iff_true, if_true]

/-- Four bytes interpret big-endian to a value below `2 ^ 32`. -/
theorem beNat_lt_of_length_four (l : List Nat) (hl : l.length = 4)
    (hb : ∀ b ∈ l, b < 256) : beNat l < 2 ^ 32 := by
  rcases l with _ | ⟨a, _ | ⟨b, _ | ⟨c, _ | ⟨d, _ | ⟨e, rest⟩⟩⟩⟩⟩ <;>
    simp_all [beNat]
  omega

/-- The `'>l'` reinterpretation of a stored value of at least `2 ^ 31`:
the decoded integer is the stored value minus `2 ^ 32`, hence negative. -/
theorem signed32_of_ge (l : List Nat) (hl : l.length = 4)
    (hb : ∀ b ∈ l, b < 256) (h : 2 ^ 31 ≤ beNat l) :
    signed32 l = (beNat l : Int) - 2 ^ 32 ∧ signed32 l < 0 := by
  have hlt := beNat_lt_of_length_four l hl hb
  constructor
  · simp only [signed32]
    rw [if_neg (by omega : ¬ beNat l < 2 ^ 31)]
  · simp only [signed32]
    rw [if_neg (by omega : ¬ beNat l < 2 ^ 31)]
    omega

/-- Claim C10: the `creation_time`, `modification_time` and `timescale`
fields of `mvhd` and `mdhd`, and the `creation_time` and
`modification_time` fields of `tkhd`, are unpacked with the signed 32-bit
big-endian format `'>l'`: whenever the stored (unsigned big-endian) field
value is at least `2 ^ 31`, the decoded integer is that value minus
`2 ^ 32`, and in particular negative — not the unsigned value. -/
theorem timestamps_signed_decode :
    (∀ (blen : Int) (f : PyFile) (g1 g2 g3 : Nat) (ct mt ts tail : List Nat),
        f.rest = 0 :: g1 :: g2 :: g3 :: (ct ++ (mt ++ (ts ++ tail))) →
        ct.length = 4 → mt.length = 4 → ts.length = 4 → 84 ≤ tail.length →
        (∀ b ∈ ct, b < 256) → (∀ b ∈ mt, b < 256) → (∀ b ∈ ts, b < 256) →
        ∃ (r : MVHDInfo) (f' : PyFile), processMVHD blen f = .ok r f' ∧
          (2 ^ 31 ≤ beNat ct → r.creation_time = (beNat ct : Int) - 2 ^ 32 ∧
            r.creation_time < 0) ∧
          (2 ^ 31 ≤ beNat mt → r.modification_time = (beNat mt : Int) - 2 ^ 32 ∧
            r.modification_time < 0) ∧
          (2 ^ 31 ≤ beNat ts → r.timescale = (beNat ts : Int) - 2 ^ 32 ∧
            r.timescale < 0))
    ∧ (∀ (blen : Int) (f : PyFile) (g1 g2 g3 : Nat) (ct mt tail : List Nat),
        f.rest = 0 :: g1 :: g2 :: g3 :: (ct ++ (mt ++ tail)) →
        ct.length = 4 → mt.length = 4 → 72 ≤ tail.length →
        (∀ b ∈ ct, b < 256) → (∀ b ∈ mt, b < 256) →
        ∃ (r : TKHDInfo) (f' : PyFile), processTKHD blen f = .ok r f' ∧
          (2 ^ 31 ≤ beNat ct → r.creation_time = (beNat ct : Int) - 2 ^ 32 ∧
            r.creation_time < 0) ∧
          (2 ^ 31 ≤ beNat mt → r.modification_time = (beNat mt : Int) - 2 ^ 32 ∧
            r.modification_time < 0))
    ∧ (∀ (blen : Int) (f : PyFile) (g1 g2 g3 : Nat) (ct mt ts tail : List Nat),
        f.rest = 0 :: g1 :: g2 :: g3 :: (ct ++ (mt ++ (ts ++ tail))) →
        ct.length = 4 → mt.length = 4 → ts.length = 4 → 8 ≤ tail.length →
        (∀ b ∈ ct, b < 256) → (∀ b ∈ mt, b < 256) → (∀ b ∈ ts, b < 256) →
        ∃ (r : MDHDInfo) (f' : PyFile), processMDHD blen f = .ok r f' ∧
          (2 ^ 31 ≤ beNat ct → r.creation_time = (beNat ct : Int) - 2 ^ 32 ∧
            r.creation_time < 0) ∧
          (2 ^ 31 ≤ beNat mt → r.modification_time = (beNat mt : Int) - 2 ^ 32 ∧
            r.modification_time < 0) ∧
          (2 ^ 31 ≤ beNat ts → r.timescale = (beNat ts : Int) - 2 ^ 32 ∧
            r.timescale < 0)) := by
  refine ⟨?_, ?_, ?_⟩
  · intro blen f g1 g2 g3 ct mt ts tail hrest hct hmt hts htail hbct hbmt hbts
    refine ⟨_, _,
      processMVHD_run blen f g1 g2 g3 ct mt ts tail hrest hct hmt hts htail,
      ?_, ?_, ?_⟩
    · intro hge
      simpa using signed32_of_ge ct hct hbct hge
    · intro hge
      simpa using signed32_of_ge mt hmt hbmt hge
    · intro hge
      simpa using signed32_of_ge ts hts hbts hge
  · intro blen f g1 g2 g3 ct mt tail hrest hct hmt htail hbct hbmt
    refine ⟨_, _,
      processTKHD_run blen f g1 g2 g3 ct mt tail hrest hct hmt htail,
      ?_, ?_⟩
    · intro hge
      simpa using signed32_of_ge ct hct hbct hge
    · intro hge
      simpa using signed32_of_ge mt hmt hbmt hge
  · intro blen f g1 g2 g3 ct mt ts tail hrest hct hmt hts htail hbct hbmt hbts
    refine ⟨_, _,
      processMDHD_run blen f g1 g2 g3 ct mt ts tail hrest hct hmt hts htail,
      ?_, ?_, ?_⟩
    · intro hge
      simpa using signed32_of_ge ct hct hbct hge
    · intro hge
      simpa using signed32_of_ge mt hmt hbmt hge
    · intro hge
      simpa using signed32_of_ge ts hts hbts hge

/-- Witness for claim C10: a concrete `mvhd` stream storing creation time
`0xFF000001 = 4278190081 ≥ 2 ^ 31` decodes it to the negative value
`4278190081 - 4294967296 = -16777215`. -/
theorem timestamps_signed_decode_witness :
    ∃ (r : MVHDInfo) (f' : PyFile),
      processMVHD 100 ⟨"w4", 0 :: 0 :: 0 :: 0 :: ([255, 0, 0, 1] ++
          ([0, 0, 0, 2] ++ ([0, 0, 0, 3] ++ List.replicate 84 0))), 0⟩ =
        .ok r f'
      ∧ r.creation_time = (4278190081 : Int) - 4294967296
      ∧ r.creation_time < 0 := by
  obtain ⟨r, f', hok, h1, _h2, _h3⟩ :=
    timestamps_signed_decode.1 100
      ⟨"w4", 0 :: 0 :: 0 :: 0 :: ([255, 0, 0, 1] ++
        ([0, 0, 0, 2] ++ ([0, 0, 0, 3] ++ List.replicate 84 0))), 0⟩
      0 0 0 [255, 0, 0, 1] [0, 0, 0, 2] [0, 0, 0, 3] (List.replicate 84 0)
      rfl rfl rfl rfl (by simp) (by decide) (by decide) (by decide)
  have hge : 2 ^ 31 ≤ beNat [255, 0, 0, 1] := by decide
  obtain ⟨he, hn⟩ := h1 hge
  refine ⟨r, f', hok, ?_, hn⟩
  rw [he, show beNat [255, 0, 0, 1] = 4278190081 from by decide]
  norm_num
